import Mathlib

/-!
Shallow embedding of the playlist/player coordination component of
`src/script.js` (a browser playlist UI wiring Plyr and Hls.js together),
together with proofs of the specification's claims about it.

Strings are modelled as lists of characters (`Str`), JavaScript truthiness
and the relevant `String.prototype` operations (`includes`, `trim`,
`toLowerCase`) are modelled explicitly, and the persisted-JSON layer is
modelled by an inductive `JsValue` so that `JSON.parse` results that are
not arrays can be talked about.
-/

/-- JavaScript strings, modelled as lists of characters. -/
abbrev Str := List Char

/-- Convert a Lean string literal to the `Str` model. -/
def str (s : String) : Str := s.data

/-- Model of `needle` matching at the very start of `hay` (an anchored
occurrence check used to build `jsIncludes`). -/
def headMatch : Str → Str → Bool
  | [], _ => true
  | _ :: _, [] => false
  | c :: cs, d :: ds => c = d && headMatch cs ds

/-- Model of JavaScript `hay.includes(needle)`: `needle` occurs as a
contiguous segment of `hay`. -/
def jsIncludes : Str → Str → Bool
  | [], needle => needle.isEmpty
  | c :: t, needle => headMatch needle (c :: t) || jsIncludes t needle

/-- The claim's "ends in" predicate: `needle` occurs as a final segment
of `hay` (JavaScript `hay.endsWith(needle)`); used only to state the
specification's wording, the source itself uses `includes`. -/
def strEndsWith (hay needle : Str) : Bool :=
  headMatch needle.reverse hay.reverse

/-- Model of JavaScript `String.prototype.toLowerCase`. -/
def lowerStr (s : Str) : Str := s.map Char.toLower

/-- Model of JavaScript `String.prototype.trim`: strip whitespace from
both ends. -/
def jsTrim (s : Str) : Str :=
  ((s.dropWhile Char.isWhitespace).reverse.dropWhile Char.isWhitespace).reverse

/-- The manifest extension string `'.m3u8'` tested by `playListItem`. -/
def m3u8Ext : Str := str ".m3u8"

/-- One playlist entry, the shape documented at `src/script.js` line 127:
`{ title, stream_url, logo, bitrate, lang }` plus the legacy `stream`
field read at line 175.  Absent fields are `none`. -/
structure Track where
  title : Option Str := none
  stream_url : Option Str := none
  stream : Option Str := none
  logo : Option Str := none
  lang : Option Str := none
  deriving DecidableEq, Repr

/-- JavaScript `a || b` on an optional string field: a present non-empty
string wins, otherwise the fallback (absent and empty string are falsy). -/
def jsOrStr (a : Option Str) (b : Str) : Str :=
  match a with
  | some s => if s.isEmpty then b else s
  | none => b

/-- Source-URL resolution from `src/script.js` line 175:
`item.stream_url || item.stream || ''`. -/
def resolveUrl (t : Track) : Str :=
  jsOrStr t.stream_url (jsOrStr t.stream [])

/-- Environment capabilities probed at `src/script.js` line 176:
`window.Hls` presence and `Hls.isSupported()`. -/
structure Env where
  hlsAvailable : Bool
  hlsSupported : Bool
  deriving DecidableEq, Repr

/-- The mutable state of the component: the global `playlist` and
`isPlaying` variables, the player element's `src` attribute, the URL (if
any) handed to an attached Hls instance, the `active` class of each
rendered list item, the `.player-title` label, the persisted
`player-playlist` storage entry, and a count of `plyrInstance.play()`
invocations. -/
structure AppState where
  playlist : List Track
  isPlaying : Bool
  playerSrc : Option Str
  hlsUrl : Option Str
  activeMarks : List Bool
  titleLabel : Str
  storage : Option (List Track)
  playCount : Nat
  deriving DecidableEq, Repr

/-- JavaScript array indexing `playlist[index]` for an integer index:
`undefined` (here `none`) outside `[0, length)`. -/
def getAtInt (l : List Track) (i : Int) : Option Track :=
  if i < 0 then none else l.get? i.toNat

/-- The `classList.toggle('active', idx === index)` pass over the rendered
list items (`src/script.js` lines 169-172): every item's active flag
becomes `idx = index`. -/
def markActive (marks : List Bool) (index : Int) : List Bool :=
  (List.range marks.length).map (fun idx => decide ((idx : Int) = index))

/-- Model of `playListItem(index)` (`src/script.js` lines 164-202): look up
the item, return unchanged if absent; otherwise update the active marks,
resolve the URL, attach via Hls when `window.Hls && Hls.isSupported() &&
url.includes('.m3u8')`, else assign the player element's `src` directly;
update the title label, invoke `plyrInstance.play()`, set `isPlaying`. -/
def playListItem (env : Env) (s : AppState) (index : Int) : AppState :=
  match getAtInt s.playlist index with
  | none => s
  | some item =>
    let marks := markActive s.activeMarks index
    let url := resolveUrl item
    if env.hlsAvailable && env.hlsSupported && jsIncludes url m3u8Ext then
      { s with activeMarks := marks, hlsUrl := some url,
               titleLabel := jsOrStr item.title [],
               playCount := s.playCount + 1, isPlaying := true }
    else
      { s with activeMarks := marks, playerSrc := some url,
               titleLabel := jsOrStr item.title [],
               playCount := s.playCount + 1, isPlaying := true }

/-- The filter predicate of `searchPlaylist` (`src/script.js` lines
216-219): reject an absent or empty (falsy) title, otherwise test
`it.title.toLowerCase().includes(normalized)`. -/
def trackMatch (normalized : Str) (it : Track) : Bool :=
  match it.title with
  | none => false
  | some t => if t.isEmpty then false else jsIncludes (lowerStr t) normalized

/-- The filtered view computed by `searchPlaylist` for a query that is
non-empty after trimming: `playlist.filter(...)` against
`query.trim().toLowerCase()`. -/
def searchFilter (playlist : List Track) (q : Str) : List Track :=
  playlist.filter (trackMatch (lowerStr (jsTrim q)))

/-- JavaScript `playlist.indexOf(x)` (strict-equality first index,
`-1` when absent), as used by the filtered-item click handler at
`src/script.js` line 236. -/
def jsIndexOfAux (x : Track) : List Track → Nat → Int
  | [], _ => -1
  | y :: t, n => if y = x then (n : Int) else jsIndexOfAux x t (n + 1)

/-- JavaScript `playlist.indexOf(x)` starting at position 0. -/
def jsIndexOf (l : List Track) (x : Track) : Int := jsIndexOfAux x l 0

/-- Fresh rendering of `n` list items: none carries the `active` class. -/
def renderMarks (n : Nat) : List Bool := List.replicate n false

/-- Model of `addToPlaylist(item)` (`src/script.js` lines 348-352): push
onto the in-memory playlist, persist the full updated sequence via
`localStorage.setItem`, and re-render the full list. -/
def addToPlaylist (s : AppState) (item : Track) : AppState :=
  let p := s.playlist ++ [item]
  { s with playlist := p, storage := some p,
           activeMarks := renderMarks p.length }

/-- Model of `window.myPlayerApp.getPlaylist` (`src/script.js` line 359). -/
def getPlaylist (s : AppState) : List Track := s.playlist

/-- State effect of `searchPlaylist(query)` (`src/script.js` lines
208-243): an empty normalized query re-renders the full list, otherwise
the filtered sublist is rendered (no item active in either case). -/
def searchPlaylistOp (s : AppState) (q : Str) : AppState :=
  let normalized := lowerStr (jsTrim q)
  if normalized.isEmpty then
    { s with activeMarks := renderMarks s.playlist.length }
  else
    { s with activeMarks := renderMarks (s.playlist.filter (trackMatch normalized)).length }

/-- Model of `handleKeydown` (`src/script.js` lines 284-307): when not
playing and the key is space or Enter, call `plyrInstance.play()` and set
`isPlaying`; the `/` and `Escape` branches touch only DOM nodes outside
this state. -/
def handleKeydown (s : AppState) (key : Str) : AppState :=
  if !s.isPlaying && (key = str " " || key = str "Enter") then
    { s with isPlaying := true, playCount := s.playCount + 1 }
  else s

/-- The operations of this component that can run after initialization. -/
inductive Op where
  | play (index : Int)
  | keydown (key : Str)
  | add (t : Track)
  | search (q : Str)
  | loadReplace (newPlaylist : List Track)
  deriving Repr

/-- One step of the component: dispatch an operation on the state.
`loadReplace` is the playlist replacement performed by the
`DOMContentLoaded` handler (the delayed `playListItem(0)` it schedules is
a separate `play` step). -/
def step (env : Env) (s : AppState) : Op → AppState
  | Op.play index => playListItem env s index
  | Op.keydown key => handleKeydown s key
  | Op.add t => addToPlaylist s t
  | Op.search q => searchPlaylistOp s q
  | Op.loadReplace p => { s with playlist := p, activeMarks := renderMarks p.length }

/-! JSON layer for the `DOMContentLoaded` load path. -/

/-- Parsed JSON values, as produced by `JSON.parse` (numbers simplified
to integers; the claims only need integer examples). -/
inductive JsValue where
  | nullV
  | boolV (b : Bool)
  | numV (n : Int)
  | strV (s : Str)
  | arrV (elems : List JsValue)
  | objV (fields : List (Str × JsValue))

/-- JavaScript falsiness of a parsed JSON value (`!playlist`). -/
def jsFalsy : JsValue → Bool
  | JsValue.nullV => true
  | JsValue.boolV b => !b
  | JsValue.numV n => n = 0
  | JsValue.strV s => s.isEmpty
  | JsValue.arrV _ => false
  | JsValue.objV _ => false

/-- Last-wins field lookup on a JavaScript object (later duplicate JSON
keys overwrite earlier ones). -/
def lookupField (fields : List (Str × JsValue)) (key : Str) : Option JsValue :=
  match fields.reverse.find? (fun p => p.1 = key) with
  | some p => some p.2
  | none => none

/-- The test `playlist.length === 0`: true exactly when the value's
`length` property exists and is strictly equal to the number `0`
(arrays and strings have their length; other values' `length` is
`undefined`, and `undefined === 0` is false). -/
def jsLengthEqZero : JsValue → Bool
  | JsValue.strV s => s.isEmpty
  | JsValue.arrV l => l.isEmpty
  | JsValue.objV fs =>
    match lookupField fs (str "length") with
    | some (JsValue.numV n) => n = 0
    | _ => false
  | _ => false

/-- JSON encoding of a demo track object literal from `src/script.js`
lines 330-331. -/
def demoTrackJs (title url : String) : JsValue :=
  JsValue.objV [(str "title", JsValue.strV (str title)),
                (str "stream_url", JsValue.strV (str url)),
                (str "logo", JsValue.strV (str "")),
                (str "lang", JsValue.strV (str "en"))]

/-- The built-in fallback demo playlist of `src/script.js` lines 329-332. -/
def demoPlaylistJs : JsValue :=
  JsValue.arrV [demoTrackJs "Demo Channel 1" "https://example.com/stream1.m3u8",
                demoTrackJs "Demo Channel 2" "https://example.com/stream2.mp4"]

/-- The value of the global `playlist` right after the try/catch of the
`DOMContentLoaded` handler (`src/script.js` lines 318-325): missing key
leaves the current value, successful parse replaces it, parse failure
degrades it to the empty array. -/
def loadParsed (saved : Option (Except Unit JsValue)) (current : JsValue) : JsValue :=
  match saved with
  | none => current
  | some (Except.ok v) => v
  | some (Except.error _) => JsValue.arrV []

/-- The fallback guard of `src/script.js` line 328:
`!playlist || playlist.length === 0`. -/
def fallbackGuard (v : JsValue) : Bool :=
  jsFalsy v || jsLengthEqZero v

/-- The value of the global `playlist` after the whole load path of the
`DOMContentLoaded` handler (`src/script.js` lines 316-333). -/
def loadPlaylist (saved : Option (Except Unit JsValue)) (current : JsValue) : JsValue :=
  let p := loadParsed saved current
  if fallbackGuard p then demoPlaylistJs else p

/-! Helper lemmas. -/

/-- A non-empty needle never occurs in the empty string. -/
theorem jsIncludes_nil_of_ne (needle : Str) (h : needle ≠ []) :
    jsIncludes [] needle = false := by
  simp [jsIncludes, List.isEmpty_iff, h]

/-- Lowercasing preserves (non-)emptiness. -/
theorem lowerStr_eq_nil_iff (s : Str) : lowerStr s = [] ↔ s = [] := by
  simp [lowerStr]

/-! Claim C2: malformed persisted playlist JSON. -/

/-- C2: for a persisted playlist string whose parse raises, the
`DOMContentLoaded` load path does not propagate the exception (the model
is a total function), first degrades the playlist to the empty array, and
then replaces it with the built-in fallback demo playlist. -/
theorem load_malformed_yields_fallback (e : Unit) (current : JsValue) :
    loadParsed (some (Except.error e)) current = JsValue.arrV [] ∧
    loadPlaylist (some (Except.error e)) current = demoPlaylistJs := by
  exact ⟨rfl, rfl⟩

/-! Claim C9: valid JSON that is not an array. -/

/-- C9: a successfully parsed persisted value is accepted as the playlist
whatever its JSON type; the fallback demo set is applied exactly when the
parsed value is falsy or its `length` property is strictly equal to 0. -/
theorem load_valid_json_guard (v : JsValue) (current : JsValue) :
    (jsFalsy v = false → jsLengthEqZero v = false →
      loadPlaylist (some (Except.ok v)) current = v) ∧
    (jsFalsy v = true ∨ jsLengthEqZero v = true →
      loadPlaylist (some (Except.ok v)) current = demoPlaylistJs) := by
  constructor
  · intro h1 h2
    simp [loadPlaylist, loadParsed, fallbackGuard, h1, h2]
  · intro h
    rcases h with h | h <;> simp [loadPlaylist, loadParsed, fallbackGuard, h]

/-- Witness for C9: the JSON object `{"a": 1}` and the JSON number `5` are
both kept as the playlist (no fallback), per the guard characterization. -/
theorem load_valid_json_guard_witness :
    loadPlaylist (some (Except.ok (JsValue.objV [(str "a", JsValue.numV 1)])))
      (JsValue.arrV []) = JsValue.objV [(str "a", JsValue.numV 1)] ∧
    loadPlaylist (some (Except.ok (JsValue.numV 5))) (JsValue.arrV [])
      = JsValue.numV 5 :=
  ⟨(load_valid_json_guard (JsValue.objV [(str "a", JsValue.numV 1)])
      (JsValue.arrV [])).1 rfl rfl,
   (load_valid_json_guard (JsValue.numV 5) (JsValue.arrV [])).1 rfl rfl⟩

/-! Claim C3: out-of-range selection is a no-op. -/

/-- C3: for every index outside `[0, playlist length)`, `playListItem`
returns the state unchanged: no exception (totality), and no mutation of
the playlist, `isPlaying`, player source, Hls attachment, rendered active
markings, title label, storage, or play-invocation count. -/
theorem playAt_out_of_range_noop (env : Env) (s : AppState) (index : Int)
    (h : index < 0 ∨ (s.playlist.length : Int) ≤ index) :
    playListItem env s index = s := by
  have hnone : getAtInt s.playlist index = none := by
    rcases h with h | h
    · simp [getAtInt, h]
    · have hnn : ¬ index < 0 := by omega
      have hlen : s.playlist.length ≤ index.toNat := by omega
      simp [getAtInt, hnn, List.get?_eq_none, hlen]
  simp [playListItem, hnone]

/-- Witness for C3: index 5 on a two-element playlist leaves a concrete
state untouched. -/
theorem playAt_out_of_range_noop_witness :
    playListItem ⟨true, true⟩
      { playlist := [{ title := some (str "A") }, { title := some (str "B") }],
        isPlaying := false, playerSrc := none, hlsUrl := none,
        activeMarks := [false, false], titleLabel := [], storage := none,
        playCount := 0 } 5
    = { playlist := [{ title := some (str "A") }, { title := some (str "B") }],
        isPlaying := false, playerSrc := none, hlsUrl := none,
        activeMarks := [false, false], titleLabel := [], storage := none,
        playCount := 0 } :=
  playAt_out_of_range_noop ⟨true, true⟩ _ 5 (by decide)

/-! Claim C7: legacy source-field resolution order. -/

/-- C7: `playListItem` resolves the playable URL as
`item.stream_url || item.stream || ''`: a present non-empty `stream_url`
wins, otherwise a present non-empty `stream`, otherwise the empty
string (absent and empty-string fields are both passed over). -/
theorem resolveUrl_first_nonempty (t : Track) :
    (∀ u : Str, t.stream_url = some u → u ≠ [] → resolveUrl t = u) ∧
    (t.stream_url = none ∨ t.stream_url = some [] →
      ∀ v : Str, t.stream = some v → v ≠ [] → resolveUrl t = v) ∧
    (t.stream_url = none ∨ t.stream_url = some [] →
      t.stream = none ∨ t.stream = some [] → resolveUrl t = []) := by
  refine ⟨?_, ?_, ?_⟩
  · intro u hu hne
    simp [resolveUrl, jsOrStr, hu, List.isEmpty_iff, hne]
  · intro h1 v hv hne
    rcases h1 with h1 | h1 <;>
      simp [resolveUrl, jsOrStr, h1, hv, List.isEmpty_iff, hne]
  · intro h1 h2
    rcases h1 with h1 | h1 <;> rcases h2 with h2 | h2 <;>
      simp [resolveUrl, jsOrStr, h1, h2]

/-- Witness for C7: a track with no `stream_url` and `stream = "s.mp4"`
resolves to `"s.mp4"`; a track with both fields absent resolves to the
empty string. -/
theorem resolveUrl_first_nonempty_witness :
    resolveUrl { stream := some (str "s.mp4") } = str "s.mp4" ∧
    resolveUrl { title := some (str "T") } = [] :=
  ⟨(resolveUrl_first_nonempty { stream := some (str "s.mp4") }).2.1
      (Or.inl rfl) (str "s.mp4") rfl (by decide),
   (resolveUrl_first_nonempty { title := some (str "T") }).2.2
      (Or.inl rfl) (Or.inl rfl)⟩

/-! Claim C1: adaptive-streaming dispatch.  The source tests
`url.includes('.m3u8')`, a substring test, not "ends in `.m3u8`": a URL
that merely contains `.m3u8` in the middle is delegated to Hls, so the
claim's direct-assignment half fails as stated. -/

/-- An environment in which `window.Hls` exists and reports support. -/
def hlsEnv : Env := ⟨true, true⟩

/-- A track whose resolved URL contains `.m3u8` in the middle but does
not end with it. -/
def m3u8MidTrack : Track :=
  { title := some (str "Mid"), stream_url := some (str "https://e.com/a.m3u8.mp4") }

/-- A one-track state used to exercise `playListItem`'s dispatch. -/
def m3u8MidState : AppState :=
  { playlist := [m3u8MidTrack], isPlaying := false, playerSrc := none,
    hlsUrl := none, activeMarks := [false], titleLabel := [],
    storage := none, playCount := 0 }

/-- Counterexample for C1 as stated: with Hls available and supported,
the URL `https://e.com/a.m3u8.mp4` does not end in `.m3u8`, yet
`playListItem` delegates it to Hls and never assigns it as the player
element's direct source, contradicting the claimed direct-assignment
fallback "for any other URL". -/
theorem playAt_dispatch_counterexample :
    strEndsWith (resolveUrl m3u8MidTrack) m3u8Ext = false ∧
    (playListItem hlsEnv m3u8MidState 0).hlsUrl
      = some (resolveUrl m3u8MidTrack) ∧
    (playListItem hlsEnv m3u8MidState 0).playerSrc
      ≠ some (resolveUrl m3u8MidTrack) := by
  decide

/-- C1 amended: for every in-range index, when Hls is available, reports
support, and the resolved URL CONTAINS the substring `.m3u8`,
`playListItem` delegates attachment of that URL to Hls and leaves the
player element's source untouched; in every other case it assigns the
URL directly as the player element's source and leaves the Hls
attachment untouched. -/
theorem playAt_source_dispatch (env : Env) (s : AppState) (index : Int)
    (item : Track) (hit : getAtInt s.playlist index = some item) :
    ((env.hlsAvailable && env.hlsSupported
        && jsIncludes (resolveUrl item) m3u8Ext) = true →
      (playListItem env s index).hlsUrl = some (resolveUrl item) ∧
      (playListItem env s index).playerSrc = s.playerSrc) ∧
    ((env.hlsAvailable && env.hlsSupported
        && jsIncludes (resolveUrl item) m3u8Ext) = false →
      (playListItem env s index).playerSrc = some (resolveUrl item) ∧
      (playListItem env s index).hlsUrl = s.hlsUrl) := by
  constructor
  · intro hc
    simp [playListItem, hit, hc]
  · intro hc
    simp [playListItem, hit, hc]

/-- Witness for C1 amended: on the demo `.m3u8` URL with Hls supported,
the Hls attachment receives the URL and the direct source stays unset. -/
theorem playAt_source_dispatch_witness :
    (playListItem hlsEnv
      { playlist := [{ title := some (str "D"),
                       stream_url := some (str "https://e.com/s.m3u8") }],
        isPlaying := false, playerSrc := none, hlsUrl := none,
        activeMarks := [false], titleLabel := [], storage := none,
        playCount := 0 } 0).hlsUrl = some (str "https://e.com/s.m3u8") ∧
    (playListItem hlsEnv
      { playlist := [{ title := some (str "D"),
                       stream_url := some (str "https://e.com/s.m3u8") }],
        isPlaying := false, playerSrc := none, hlsUrl := none,
        activeMarks := [false], titleLabel := [], storage := none,
        playCount := 0 } 0).playerSrc = none :=
  (playAt_source_dispatch hlsEnv
    { playlist := [{ title := some (str "D"),
                     stream_url := some (str "https://e.com/s.m3u8") }],
      isPlaying := false, playerSrc := none, hlsUrl := none,
      activeMarks := [false], titleLabel := [], storage := none,
      playCount := 0 } 0
    { title := some (str "D"),
      stream_url := some (str "https://e.com/s.m3u8") }
    (by decide)).1 (by decide)

/-! Claim C10: a track with no resolvable source is still played. -/

/-- C10: for an in-range index whose track has neither a non-empty
`stream_url` nor a non-empty `stream`, `playListItem` does not treat the
track as unplayable: the empty string is assigned as the player
element's direct source (the Hls path is not taken), `plyrInstance.play()`
is still invoked, and `isPlaying` is set true. -/
theorem playAt_empty_source_still_plays (env : Env) (s : AppState)
    (index : Int) (item : Track)
    (hit : getAtInt s.playlist index = some item)
    (hsu : item.stream_url = none ∨ item.stream_url = some [])
    (hst : item.stream = none ∨ item.stream = some []) :
    (playListItem env s index).playerSrc = some [] ∧
    (playListItem env s index).hlsUrl = s.hlsUrl ∧
    (playListItem env s index).playCount = s.playCount + 1 ∧
    (playListItem env s index).isPlaying = true := by
  have hurl : resolveUrl item = [] :=
    (resolveUrl_first_nonempty item).2.2 hsu hst
  have hinc : jsIncludes ([] : Str) m3u8Ext = false := by decide
  simp [playListItem, hit, hurl, hinc]

/-- Witness for C10: a sourceless track at index 0 is "played": empty
direct source, play invoked, `isPlaying` true. -/
theorem playAt_empty_source_still_plays_witness :
    (playListItem hlsEnv
      { playlist := [{ title := some (str "NoSrc") }],
        isPlaying := false, playerSrc := none, hlsUrl := none,
        activeMarks := [false], titleLabel := [], storage := none,
        playCount := 0 } 0).playerSrc = some [] ∧
    (playListItem hlsEnv
      { playlist := [{ title := some (str "NoSrc") }],
        isPlaying := false, playerSrc := none, hlsUrl := none,
        activeMarks := [false], titleLabel := [], storage := none,
        playCount := 0 } 0).hlsUrl = none ∧
    (playListItem hlsEnv
      { playlist := [{ title := some (str "NoSrc") }],
        isPlaying := false, playerSrc := none, hlsUrl := none,
        activeMarks := [false], titleLabel := [], storage := none,
        playCount := 0 } 0).playCount = 0 + 1 ∧
    (playListItem hlsEnv
      { playlist := [{ title := some (str "NoSrc") }],
        isPlaying := false, playerSrc := none, hlsUrl := none,
        activeMarks := [false], titleLabel := [], storage := none,
        playCount := 0 } 0).isPlaying = true :=
  playAt_empty_source_still_plays hlsEnv
    { playlist := [{ title := some (str "NoSrc") }],
      isPlaying := false, playerSrc := none, hlsUrl := none,
      activeMarks := [false], titleLabel := [], storage := none,
      playCount := 0 } 0 { title := some (str "NoSrc") }
    (by decide) (Or.inl rfl) (Or.inl rfl)

/-! Claim C4: filtered-view selection resolves the original index. -/

/-- The `playlist.indexOf` model finds, for any member, an index at which
the playlist holds exactly that element (the first strict-equality hit,
offset by the running counter). -/
theorem jsIndexOfAux_mem (x : Track) (l : List Track) :
    ∀ n : Nat, x ∈ l →
      ∃ j : Nat, jsIndexOfAux x l n = ((n + j : Nat) : Int) ∧
        l.get? j = some x := by
  induction l with
  | nil => intro n h; exact absurd h (List.not_mem_nil x)
  | cons y t ih =>
    intro n h
    by_cases hyx : y = x
    · refine ⟨0, ?_, ?_⟩
      · simp [jsIndexOfAux, hyx]
      · simp [hyx]
    · have hxt : x ∈ t := by
        rcases List.mem_cons.mp h with h1 | h1
        · exact absurd h1.symm hyx
        · exact h1
      obtain ⟨j, hj1, hj2⟩ := ih (n + 1) hxt
      refine ⟨j + 1, ?_, ?_⟩
      · rw [jsIndexOfAux]
        simp only [hyx, if_false]
        rw [hj1]
        omega
      · simpa using hj2

/-- C4: for every playlist and non-empty-after-trimming query, the click
handler of the k-th item of the filtered view computes
`playlist.indexOf(item)`, which is a position of that very track in the
original unfiltered playlist — not the filtered position k. -/
theorem filtered_click_plays_original_index (playlist : List Track)
    (q : Str) (k : Nat) (_hq : jsTrim q ≠ [])
    (hk : k < (searchFilter playlist q).length) :
    ∃ (it : Track) (j : Nat),
      (searchFilter playlist q).get? k = some it ∧
      jsIndexOf playlist it = (j : Int) ∧
      playlist.get? j = some it := by
  set it := (searchFilter playlist q).get ⟨k, hk⟩ with hdef
  have hget : (searchFilter playlist q).get? k = some it :=
    List.get?_eq_get hk
  have hmem : it ∈ searchFilter playlist q := by
    rw [hdef]; exact List.get_mem _ _ _
  have hmem2 : it ∈ playlist := by
    rw [searchFilter] at hmem
    exact List.mem_of_mem_filter hmem
  obtain ⟨j, hj1, hj2⟩ := jsIndexOfAux_mem it playlist 0 hmem2
  refine ⟨it, j, hget, ?_, hj2⟩
  rw [jsIndexOf, hj1]
  omega

/-- The spec's example tracks: `Alpha` with an mp4 source and `Beta Show`
with an m3u8 source. -/
def alphaTrack : Track :=
  { title := some (str "Alpha"), stream_url := some (str "a.mp4") }

/-- The spec's second example track. -/
def betaTrack : Track :=
  { title := some (str "Beta Show"), stream_url := some (str "b.m3u8") }

/-- The spec's example playlist. -/
def examplePlaylist : List Track := [alphaTrack, betaTrack]

/-- Witness for C4: on the example playlist filtered with `"beta"`, the
0-th filtered item is `Beta Show` and its handler resolves index 1 of the
original playlist (its filtered position is 0). -/
theorem filtered_click_plays_original_index_witness :
    ∃ (it : Track) (j : Nat),
      (searchFilter examplePlaylist (str "beta")).get? 0 = some it ∧
      jsIndexOf examplePlaylist it = (j : Int) ∧
      examplePlaylist.get? j = some it :=
  filtered_click_plays_original_index examplePlaylist (str "beta") 0
    (by decide) (by decide)

/-! Claim C5: the filtered view is the order-preserving sublist of
case-insensitive title matches. -/

/-- C5: for every query that is non-empty after trimming, the filter
result is a sublist of the playlist (subset in original relative order)
whose members are exactly the tracks having a title whose lower-cased
text contains the trimmed lower-cased query; tracks with no title never
appear. -/
theorem searchFilter_characterization (playlist : List Track) (q : Str)
    (hq : jsTrim q ≠ []) :
    List.Sublist (searchFilter playlist q) playlist ∧
    ∀ t : Track, t ∈ searchFilter playlist q ↔
      t ∈ playlist ∧ ∃ ttl : Str, t.title = some ttl ∧
        jsIncludes (lowerStr ttl) (lowerStr (jsTrim q)) = true := by
  have hn : lowerStr (jsTrim q) ≠ [] := by
    intro h; exact hq ((lowerStr_eq_nil_iff _).mp h)
  constructor
  · exact List.filter_sublist _
  · intro t
    rw [searchFilter, List.mem_filter]
    constructor
    · rintro ⟨hmem, hmatch⟩
      refine ⟨hmem, ?_⟩
      cases htitle : t.title with
      | none => rw [trackMatch, htitle] at hmatch; exact absurd hmatch (by simp)
      | some ttl =>
        refine ⟨ttl, rfl, ?_⟩
        by_cases he : ttl = []
        · subst he; simp [trackMatch, htitle] at hmatch
        · simpa [trackMatch, htitle, List.isEmpty_iff, he] using hmatch
    · rintro ⟨hmem, ttl, htitle, hinc⟩
      refine ⟨hmem, ?_⟩
      have he : ttl ≠ [] := by
        intro h; subst h
        rw [show lowerStr [] = ([] : Str) from rfl, jsIncludes] at hinc
        exact hn (List.isEmpty_iff.mp hinc)
      simpa [trackMatch, htitle, List.isEmpty_iff, he] using hinc

/-- Witness for C5: on the example playlist with query `"beta"`, the
filtered view is a sublist, and membership of `Beta Show` is equivalent
to its lower-cased title containing `"beta"`. -/
theorem searchFilter_characterization_witness :
    List.Sublist (searchFilter examplePlaylist (str "beta"))
      examplePlaylist ∧
    (betaTrack ∈ searchFilter examplePlaylist (str "beta") ↔
      betaTrack ∈ examplePlaylist ∧ ∃ ttl : Str,
        betaTrack.title = some ttl ∧
        jsIncludes (lowerStr ttl) (lowerStr (jsTrim (str "beta"))) = true) :=
  ⟨(searchFilter_characterization examplePlaylist (str "beta")
      (by decide)).1,
   (searchFilter_characterization examplePlaylist (str "beta")
      (by decide)).2 betaTrack⟩

/-! Claim C6: addToPlaylist is append-only and persists. -/

/-- Folding a sequence of `addToPlaylist` calls appends the items in call
order after the untouched initial elements. -/
theorem foldl_addToPlaylist_playlist (s : AppState) (items : List Track) :
    (items.foldl addToPlaylist s).playlist = s.playlist ++ items := by
  induction items generalizing s with
  | nil => simp
  | cons t ts ih =>
    rw [List.foldl_cons, ih]
    simp [addToPlaylist]

/-- C6: `addToPlaylist` is append-only: after any sequence of N add
calls the playlist returned by `getPlaylist` is the initial sequence
unchanged in place followed by the added tracks in call order (so its
length is the initial length plus N), and each individual add persists
the full updated sequence to storage. -/
theorem addToPlaylist_append_only (s : AppState) (items : List Track) :
    getPlaylist (items.foldl addToPlaylist s) = getPlaylist s ++ items ∧
    (getPlaylist (items.foldl addToPlaylist s)).length
      = (getPlaylist s).length + items.length ∧
    ∀ (s0 : AppState) (t : Track),
      getPlaylist (addToPlaylist s0 t) = getPlaylist s0 ++ [t] ∧
      (addToPlaylist s0 t).storage = some (getPlaylist s0 ++ [t]) := by
  refine ⟨foldl_addToPlaylist_playlist s items, ?_, ?_⟩
  · rw [show getPlaylist (items.foldl addToPlaylist s)
          = (items.foldl addToPlaylist s).playlist from rfl,
        foldl_addToPlaylist_playlist]
    simp [getPlaylist]
  · intro s0 t
    exact ⟨rfl, rfl⟩

/-! Claim C8: the `isPlaying` flag is monotone. -/

/-- A single step of any operation of this component never resets
`isPlaying` from true to false. -/
theorem step_isPlaying_mono (env : Env) (s : AppState) (op : Op)
    (h : s.isPlaying = true) : (step env s op).isPlaying = true := by
  cases op with
  | play index =>
    cases hgi : getAtInt s.playlist index with
    | none => simpa [step, playListItem, hgi] using h
    | some item =>
      simp only [step, playListItem, hgi]
      split <;> rfl
  | keydown key =>
    simp [step, handleKeydown, h]
  | add t =>
    simpa [step, addToPlaylist] using h
  | search q =>
    simp only [step, searchPlaylistOp]
    split <;> simpa using h
  | loadReplace p =>
    simpa [step] using h

/-- C8: `isPlaying` is monotone: in every state with `isPlaying` true,
any sequence of component operations (play, keydown, add, search,
playlist replacement) leaves it true — no operation of this component
ever resets it to false. -/
theorem isPlaying_monotone (env : Env) (ops : List Op) (s : AppState)
    (h : s.isPlaying = true) :
    (ops.foldl (step env) s).isPlaying = true := by
  induction ops generalizing s with
  | nil => simpa using h
  | cons op rest ih =>
    rw [List.foldl_cons]
    exact ih (step env s op) (step_isPlaying_mono env s op h)

/-- Witness for C8: a concrete trace of a search, an add, a keydown and a
play, started in a playing state, ends with `isPlaying` still true. -/
theorem isPlaying_monotone_witness :
    (([Op.search (str "x"), Op.add { title := some (str "T") },
       Op.keydown (str " "), Op.play 0].foldl (step hlsEnv)
      { playlist := [alphaTrack], isPlaying := true, playerSrc := none,
        hlsUrl := none, activeMarks := [false], titleLabel := [],
        storage := none, playCount := 1 })).isPlaying = true :=
  isPlaying_monotone hlsEnv
    [Op.search (str "x"), Op.add { title := some (str "T") },
     Op.keydown (str " "), Op.play 0]
    { playlist := [alphaTrack], isPlaying := true, playerSrc := none,
      hlsUrl := none, activeMarks := [false], titleLabel := [],
      storage := none, playCount := 1 } rfl
